import Mathlib

set_option maxRecDepth 8000

/-- Error outcomes of the constructor and of Rntrc.generate in src/index.ts.
The constructor throws one message for all of its failures, while generate
distinguishes an impossible calendar date, an out-of-range birthdate and an
unrecognized gender string. -/
inductive GenError where
  | invalidRntrc
  | invalidDate
  | rangeErr
  | invalidGender
  deriving DecidableEq

/-- An Rntrc instance: the stored value and the ignoreInvalid flag, as set by
the constructor in src/index.ts lines 47-58.  JS strings are modelled as
lists of characters. -/
structure Rntrc where
  value : List Char
  ignoreInvalid : Bool
  deriving DecidableEq

/-- Decidable equality of Except results, used to evaluate concrete runs of
the constructor and the generator. -/
instance {e a : Type} [DecidableEq e] [DecidableEq a] : DecidableEq (Except e a) := fun x y =>
  match x, y with
  | Except.error u, Except.error v =>
    if h : u = v then isTrue (by rw [h]) else isFalse (by simp [h])
  | Except.ok u, Except.ok v =>
    if h : u = v then isTrue (by rw [h]) else isFalse (by simp [h])
  | Except.error _, Except.ok _ => isFalse (by simp)
  | Except.ok _, Except.error _ => isFalse (by simp)

/-- The string constant "male". -/
def maleStr : String := "male"

/-- The string constant "female". -/
def femaleStr : String := "female"

/-- The empty string. -/
def emptyStr : String := ""

namespace Rntrc

/-- The checksum weight table (src/index.ts line 27). -/
def WEIGHTS : List Int := [-1, 5, 7, 9, 4, 6, 10, 5, 7]

/-- Numeric value of a decimal digit character. -/
def digitVal (c : Char) : Nat := c.toNat - 48

/-- Decimal digit character for a value below ten. -/
def digitChar (n : Nat) : Char := Char.ofNat (48 + n)

/-- JS parseInt(d, 10) applied to one character: a decimal digit maps to its
value, anything else to NaN, modelled as none. -/
def parseIntChar (c : Char) : Option Int :=
  if c.isDigit then some (Int.ofNat (digitVal c)) else none

/-- Fuel-driven core of decimal printing of a natural number. -/
def natToCharsAux : Nat → Nat → List Char → List Char
  | 0, _, acc => acc
  | fuel + 1, n, acc =>
    if n < 10 then digitChar n :: acc
    else natToCharsAux fuel (n / 10) (digitChar (n % 10) :: acc)

/-- Decimal digits of a natural number, most significant first
(JS String(n) for a non-negative number). -/
def natToChars (n : Nat) : List Char := natToCharsAux (n + 1) n []

/-- JS String(i) for an integer: a minus sign followed by the decimal digits
when the number is negative. -/
def jsNumToStr (i : Int) : List Char :=
  if i < 0 then '-' :: natToChars (-i).toNat else natToChars i.toNat

/-- Value of a list of decimal digit characters, most significant first. -/
def parseDigitsNat (cs : List Char) : Nat :=
  cs.foldl (fun a c => a * 10 + digitVal c) 0

/-- JS parseInt on a string: the longest prefix of decimal digits is parsed;
with no leading digit the result is NaN, modelled as none.  (Sign and
whitespace handling are omitted: the call site, birthdate, only ever passes
characters of a stored identifier value.) -/
def jsParseInt (cs : List Char) : Option Int :=
  let ds := cs.takeWhile Char.isDigit
  if ds.isEmpty then none else some (Int.ofNat (parseDigitsNat ds))

/-- JS String.prototype.padStart with a single pad character. -/
def padLeft (cs : List Char) (n : Nat) (c : Char) : List Char :=
  List.replicate (n - cs.length) c ++ cs

/-- The weighted terms of the checksum: the first nine characters paired
positionally with the nine weights; a non-digit character yields NaN (none),
as parseInt does in src/index.ts lines 132-141. -/
def weightedTerms (cs : List Char) : List (Option Int) :=
  List.zipWith (fun c w => Option.map (fun x => x * w) (parseIntChar c)) (cs.take 9) WEIGHTS

/-- Addition of JS numbers with NaN (none) propagation. -/
def optAdd : Option Int → Option Int → Option Int
  | some a, some b => some (a + b)
  | _, _ => none

/-- The weighted checksum sum of src/index.ts lines 136-141 (NaN-aware). -/
def checksumNum (cs : List Char) : Option Int :=
  (weightedTerms cs).foldl optAdd (some 0)

/-- Rntrc.checksum (src/index.ts lines 131-147): the weighted sum is reduced
by the JS remainder operator, which keeps the sign of the dividend
(Int.tmod), modulo 11 and then modulo 10; a result equal to 10 is replaced
by 0 (dead in fact); the number is returned in its string form.  A NaN sum
prints as "NaN". -/
def checksumChars (cs : List Char) : List Char :=
  match checksumNum cs with
  | none => ['N', 'a', 'N']
  | some s =>
    let c := Int.tmod (Int.tmod s 11) 10
    jsNumToStr (if c = 10 then 0 else c)

/-- Day number (days since 1970-01-01) of a proleptic Gregorian calendar
date, in floor-division form; this is the day count underlying ECMAScript
Date.UTC at UTC midnight. -/
def daysFromCivil (y m d : Int) : Int :=
  let yy := if m ≤ 2 then y - 1 else y
  let era := Int.fdiv yy 400
  let yoe := yy - era * 400
  let mp := if 2 < m then m - 3 else m + 9
  let doy := Int.fdiv (153 * mp + 2) 5 + d - 1
  let doe := yoe * 365 + Int.fdiv yoe 4 - Int.fdiv yoe 100 + doy
  era * 146097 + doe - 719468

/-- Calendar date (year, month, day) of a day number; models the ECMAScript
getFullYear/getMonth+1/getDate decomposition of a UTC-midnight Date value in
a UTC environment (the month is returned 1-based here). -/
def civilFromDays (z0 : Int) : Int × Int × Int :=
  let z := z0 + 719468
  let era := Int.fdiv z 146097
  let doe := z - era * 146097
  let yoe := Int.fdiv (doe - Int.fdiv doe 1460 + Int.fdiv doe 36524 - Int.fdiv doe 146096) 365
  let y := yoe + era * 400
  let doy := doe - (365 * yoe + Int.fdiv yoe 4 - Int.fdiv yoe 100)
  let mp := Int.fdiv (5 * doy + 2) 153
  let d := doy - Int.fdiv (153 * mp + 2) 5 + 1
  let m := if mp < 10 then mp + 3 else mp - 9
  (if m ≤ 2 then y + 1 else y, m, d)

/-- ECMAScript MakeDay: the day number of Date.UTC(y, mi, d) where mi is a
0-based month index; an out-of-range index is normalized into the year. -/
def jsMakeDay (y mi d : Int) : Int :=
  let ym := y + Int.fdiv mi 12
  let mn := mi - 12 * Int.fdiv mi 12
  daysFromCivil ym (mn + 1) 1 + d - 1

/-- Day number of the epoch 1899-12-31 (src/index.ts BASE_DATE_MS, line 28). -/
def baseDays : Int := daysFromCivil 1899 12 31

/-- BASE_DATE_MS: the epoch as a millisecond timestamp. -/
def baseMs : Int := 86400000 * baseDays

/-- Day number of MIN_DATE 1900-01-01 (src/index.ts line 29). -/
def minDays : Int := daysFromCivil 1900 1 1

/-- Day number of MAX_DATE 2173-10-14 (src/index.ts line 30). -/
def maxDays : Int := daysFromCivil 2173 10 14

/-- MIN_DATE.getTime(). -/
def minMs : Int := 86400000 * minDays

/-- MAX_DATE.getTime(). -/
def maxMs : Int := 86400000 * maxDays

/-- Rntrc.valid (src/index.ts lines 154-157): a value whose ninth character
(index 8) is the digit zero is invalid; otherwise the character at index 9
(undefined when the value is shorter) must equal the checksum string. -/
def valid (v : List Char) : Bool :=
  if v[8]? = some '0' then false
  else
    match v[9]? with
    | some c => decide ([c] = checksumChars v)
    | none => false

/-- The constructor (src/index.ts lines 47-58): it throws when the semantic
check fails while ignoreInvalid is false, or when the value is not exactly
ten characters, or when it is not all decimal digits. -/
def construct (v : List Char) (ignoreInvalid : Bool) : Except GenError Rntrc :=
  if (ignoreInvalid = false ∧ valid v = false) ∨ v.length ≠ 10 ∨ v.all Char.isDigit = false
  then Except.error GenError.invalidRntrc
  else Except.ok (Rntrc.mk v ignoreInvalid)

/-- Rntrc.birthdate (src/index.ts lines 90-93): parseInt of the first five
characters, then BASE_DATE_MS plus that many days, as a millisecond
timestamp; none models an Invalid Date (NaN). -/
def birthdate (v : List Char) : Option Int :=
  Option.map (fun days => baseMs + days * 86400000) (jsParseInt (v.take 5))

/-- Rntrc.gender (src/index.ts lines 100-102): Number(value[8]) % 2 !== 0
gives male, otherwise female; a missing or non-digit character makes the
test NaN !== 0, which is true, hence male. -/
def gender (v : List Char) : String :=
  match v[8]? with
  | some c =>
    if c.isDigit then (if digitVal c % 2 = 0 then femaleStr else maleStr) else maleStr
  | none => maleStr

/-- Rntrc.male (src/index.ts lines 109-111). -/
def male (v : List Char) : Bool := decide (gender v = maleStr)

/-- Rntrc.female (src/index.ts lines 118-120). -/
def female (v : List Char) : Bool := decide (gender v = femaleStr)

/-- Rntrc.accountingCardNumber (src/index.ts lines 127-129): slice(5, 9). -/
def accountingCardNumber (v : List Char) : List Char := (v.drop 5).take 4

/-- The gender-digit branch of Rntrc.generate (src/index.ts lines 228-238).
The JS test is the falsiness of the gender value, so both an absent gender
and the empty string take the random branch; gd is the outcome of the random
draw (the raw digit in the falsy branch, the multiplier otherwise). -/
def genderDigit (go : Option String) (gd : Nat) : Except GenError Nat :=
  if go = none ∨ go = some emptyStr then Except.ok gd
  else if go = some femaleStr then Except.ok (gd * 2 + 2)
  else if go = some maleStr then Except.ok (gd * 2 + 1)
  else Except.error GenError.invalidGender

/-- Assembly of the generated value (src/index.ts lines 222-242): the 5-digit
zero-padded day offset, the 3-digit zero-padded record number and the gender
digit are concatenated and the checksum over these nine digits is appended. -/
def assemble (offset : Int) (recDraw g : Nat) : List Char :=
  let daysStr := padLeft (jsNumToStr offset) 5 '0'
  let recStr := padLeft (jsNumToStr (Int.ofNat recDraw)) 3 '0'
  let r9 := daysStr ++ recStr ++ jsNumToStr (Int.ofNat g)
  r9 ++ checksumChars r9

/-- Rntrc.generate (src/index.ts lines 178-243) for explicitly resolved
numeric year, month and day (the random fallbacks for absent fields resolve
to such values), with the outcomes of the two remaining random draws passed
in as recDraw and genderDraw.  The date is rebuilt with Date.UTC and must
round-trip through the calendar decomposition, must lie in
[MIN_DATE, MAX_DATE], and then the 5-digit padded day offset, the 3-digit
padded record number and the gender digit are concatenated, the checksum is
appended, and the constructor runs with validation on. -/
def generate (y m d : Int) (go : Option String) (recDraw genderDraw : Nat) :
    Except GenError Rntrc :=
  let t := jsMakeDay y (m - 1) d
  if civilFromDays t ≠ (y, m, d) then Except.error GenError.invalidDate
  else if t * 86400000 < minMs ∨ maxMs < t * 86400000 then Except.error GenError.rangeErr
  else
    match genderDigit go genderDraw with
    | Except.error e => Except.error e
    | Except.ok g =>
      construct (assemble (Int.fdiv (t * 86400000 - baseMs) 86400000) recDraw g) false

/-- Modelled from the spec: the weighted sum over the first nine digits of
the string, paired positionally with the fixed weight table. -/
def specWeightedSum (cs : List Char) : Int :=
  (List.zipWith (fun c w => Int.ofNat (digitVal c) * w) (cs.take 9) WEIGHTS).sum

/-- Modelled from the spec: the reference checksum with the reduction
((sum mod 11) mod 10) read as the truncated, sign-preserving remainder, and
a raw result of 10 mapped to 0. -/
def checksumSpecTrunc (cs : List Char) : List Char :=
  let r := Int.tmod (Int.tmod (specWeightedSum cs) 11) 10
  jsNumToStr (if r = 10 then 0 else r)

/-- Modelled from the spec: the reference checksum with the reduction
((sum mod 11) mod 10) computed with the mathematical, non-negative modulus
(Int.emod), and a raw result of 10 mapped to 0. -/
def checksumSpecMath (cs : List Char) : List Char :=
  let r := specWeightedSum cs % 11 % 10
  jsNumToStr (if r = 10 then 0 else r)

end Rntrc

/-- Concrete identifier used by the spec's worked example. -/
def exId : List Char := "1234567899".data

/-- Concrete digit string whose weighted checksum sum is negative. -/
def negSum1 : List Char := "900000000".data

/-- A second digit string whose weighted checksum sum is negative. -/
def negSum2 : List Char := "910000000".data

/-- A ten-digit string whose ninth digit (index 8) is zero. -/
def genderZeroId : List Char := "1234567809".data

/-- A nine-character digit string (too short to construct). -/
def shortId : List Char := "123456789".data

/-- A gender string that is neither male nor female nor empty. -/
def otherGenderStr : String := "other"

/-- The identifier produced by generate for 2000-01-01, record draw 0 and
gender digit 1. -/
def genExample : List Char := "3652500018".data

open Rntrc

/-- A digit character made from a value below ten decodes to that value. -/
theorem digitVal_digitChar (k : Nat) (h : k < 10) : digitVal (digitChar k) = k := by
  interval_cases k <;> rfl

/-- A digit character made from a value below ten is a decimal digit. -/
theorem isDigit_digitChar (k : Nat) (h : k < 10) : (digitChar k).isDigit = true := by
  interval_cases k <;> rfl

/-- A digit character made from a value below ten lies between '0' and '9'. -/
theorem digitChar_range (k : Nat) (h : k < 10) : '0' ≤ digitChar k ∧ digitChar k ≤ '9' := by
  interval_cases k <;> exact ⟨by decide, by decide⟩

/-- Folding the base-10 accumulator over the printed digits continues the
fold with the printed number as accumulator. -/
theorem foldl_natToCharsAux (fuel : Nat) : ∀ (n : Nat) (acc : List Char),
    n < 10 ^ fuel →
    List.foldl (fun a c => a * 10 + digitVal c) 0 (natToCharsAux fuel n acc)
      = List.foldl (fun a c => a * 10 + digitVal c) n acc := by
  induction fuel with
  | zero =>
    intro n acc h
    have hn : n = 0 := by simpa using h
    subst hn
    rfl
  | succ f ih =>
    intro n acc h
    unfold natToCharsAux
    by_cases h10 : n < 10
    · rw [if_pos h10]
      simp [List.foldl_cons, digitVal_digitChar n h10]
    · rw [if_neg h10]
      have hdiv : n / 10 < 10 ^ f := by
        rw [Nat.div_lt_iff_lt_mul (by norm_num)]
        calc n < 10 ^ (f + 1) := h
          _ = 10 ^ f * 10 := by rw [pow_succ]
      rw [ih (n / 10) _ hdiv]
      simp only [List.foldl_cons, digitVal_digitChar (n % 10) (Nat.mod_lt n (by norm_num))]
      congr 1
      omega

/-- parseInt is a left inverse of decimal printing on natural numbers. -/
theorem parseDigitsNat_natToChars (n : Nat) : parseDigitsNat (natToChars n) = n := by
  have h : n < 10 ^ (n + 1) := by
    calc n < 2 ^ n := Nat.lt_two_pow n
      _ ≤ 10 ^ n := Nat.pow_le_pow_left (by norm_num) n
      _ ≤ 10 ^ (n + 1) := Nat.pow_le_pow_right (by norm_num) (Nat.le_succ n)
  exact foldl_natToCharsAux (n + 1) n [] h

/-- Every character printed for a natural number is a decimal digit. -/
theorem all_isDigit_natToCharsAux (fuel : Nat) : ∀ (n : Nat) (acc : List Char),
    acc.all Char.isDigit = true → (natToCharsAux fuel n acc).all Char.isDigit = true := by
  induction fuel with
  | zero => intro n acc h; exact h
  | succ f ih =>
    intro n acc h
    unfold natToCharsAux
    by_cases h10 : n < 10
    · rw [if_pos h10]
      simp [List.all_cons, isDigit_digitChar n h10, h]
    · rw [if_neg h10]
      exact ih _ _ (by simp [List.all_cons, isDigit_digitChar (n % 10) (Nat.mod_lt n (by norm_num)), h])

/-- The decimal print of a natural number is all digits. -/
theorem all_isDigit_natToChars (n : Nat) : (natToChars n).all Char.isDigit = true :=
  all_isDigit_natToCharsAux (n + 1) n [] rfl

/-- A natural number below 10 ^ k prints in at most k digits. -/
theorem length_natToCharsAux (fuel : Nat) : ∀ (k n : Nat) (acc : List Char),
    n < 10 ^ k → 1 ≤ k → (natToCharsAux fuel n acc).length ≤ k + acc.length := by
  induction fuel with
  | zero =>
    intro k n acc _ _
    show acc.length ≤ k + acc.length
    omega
  | succ f ih =>
    intro k n acc h hk
    unfold natToCharsAux
    by_cases h10 : n < 10
    · rw [if_pos h10]; simp; omega
    · rw [if_neg h10]
      have hk2 : 2 ≤ k := by
        rcases Nat.lt_or_ge k 2 with hlt | hge
        · interval_cases k
          simp at h
          omega
        · exact hge
      have hdiv : n / 10 < 10 ^ (k - 1) := by
        rw [Nat.div_lt_iff_lt_mul (by norm_num)]
        calc n < 10 ^ k := h
          _ = 10 ^ (k - 1) * 10 := by
            rw [← pow_succ]
            congr 1
            omega
      have := ih (k - 1) (n / 10) (digitChar (n % 10) :: acc) hdiv (by omega)
      simp at this ⊢
      omega

/-- The decimal print of a natural number below 10 ^ k has at most k digits. -/
theorem length_natToChars (n k : Nat) (h : n < 10 ^ k) (hk : 1 ≤ k) :
    (natToChars n).length ≤ k := by
  have := length_natToCharsAux (n + 1) k n [] h hk
  simpa using this

/-- Padding to a width at least the current length gives exactly that width. -/
theorem length_padLeft (cs : List Char) (n : Nat) (c : Char) (h : cs.length ≤ n) :
    (padLeft cs n c).length = n := by
  simp [padLeft]
  omega

/-- Zero-padding an all-digit list keeps it all digits. -/
theorem all_isDigit_padLeft (cs : List Char) (n : Nat) (h : cs.all Char.isDigit = true) :
    (padLeft cs n '0').all Char.isDigit = true := by
  simp only [padLeft, List.all_append, Bool.and_eq_true]
  refine ⟨?_, h⟩
  simp only [List.all_eq_true]
  intro c hc
  rw [List.eq_of_mem_replicate hc]
  rfl

/-- Folding the base-10 accumulator over leading zero characters keeps it 0. -/
theorem foldl_replicate_zero (k : Nat) :
    List.foldl (fun a c => a * 10 + digitVal c) 0 (List.replicate k '0') = 0 := by
  induction k with
  | zero => rfl
  | succ m ih => simpa [List.replicate_succ, digitVal] using ih

/-- Zero-padding does not change the parsed value. -/
theorem parseDigitsNat_padLeft (cs : List Char) (n : Nat) :
    parseDigitsNat (padLeft cs n '0') = parseDigitsNat cs := by
  simp only [padLeft, parseDigitsNat, List.foldl_append, foldl_replicate_zero]

/-- takeWhile keeps an all-digit list whole. -/
theorem takeWhile_isDigit_all (cs : List Char) (h : cs.all Char.isDigit = true) :
    cs.takeWhile Char.isDigit = cs := by
  induction cs with
  | nil => rfl
  | cons a l ih =>
    simp only [List.all_cons, Bool.and_eq_true] at h
    simp [List.takeWhile_cons, h.1, ih h.2]

/-- parseInt on a nonempty all-digit string returns the parsed value. -/
theorem jsParseInt_digits (cs : List Char) (h : cs.all Char.isDigit = true) (hne : cs ≠ []) :
    jsParseInt cs = some (Int.ofNat (parseDigitsNat cs)) := by
  rw [jsParseInt]
  simp only [takeWhile_isDigit_all cs h]
  rw [if_neg]
  simp [List.isEmpty_iff]
  exact hne

/-- The weighted checksum terms only depend on the first nine characters. -/
theorem weightedTerms_take9 (cs : List Char) : weightedTerms (cs.take 9) = weightedTerms cs := by
  simp [weightedTerms, List.take_take]

/-- The checksum string only depends on the first nine characters. -/
theorem checksumChars_take9 (cs : List Char) : checksumChars (cs.take 9) = checksumChars cs := by
  simp only [checksumChars, checksumNum, weightedTerms_take9]

/-- Two strings agreeing on their first nine characters get equal checksums. -/
theorem checksumChars_congr (s t : List Char) (h : s.take 9 = t.take 9) :
    checksumChars s = checksumChars t := by
  rw [← checksumChars_take9 s, ← checksumChars_take9 t, h]

/-- On all-digit inputs the NaN-aware checksum fold computes the plain
weighted sum. -/
theorem foldl_optAdd_digits (ds : List Char) : ∀ (ws : List Int) (a : Int),
    (∀ c ∈ ds, c.isDigit = true) →
    List.foldl optAdd (some a)
      (List.zipWith (fun c w => Option.map (fun x => x * w) (parseIntChar c)) ds ws)
      = some (a + (List.zipWith (fun c w => Int.ofNat (digitVal c) * w) ds ws).sum) := by
  induction ds with
  | nil => intro ws a _; simp
  | cons c l ih =>
    intro ws a h
    cases ws with
    | nil => simp
    | cons w ws2 =>
      have hc : c.isDigit = true := h c (by simp)
      have hpc : parseIntChar c = some (Int.ofNat (digitVal c)) := by
        rw [parseIntChar, if_pos hc]
      simp only [List.zipWith_cons_cons, hpc, Option.map_some', List.foldl_cons]
      have hstep : optAdd (some a) (some (Int.ofNat (digitVal c) * w))
          = some (a + Int.ofNat (digitVal c) * w) := rfl
      rw [hstep, ih ws2 _ (fun x hx => h x (by simp [hx]))]
      simp only [List.sum_cons]
      congr 1
      ring

/-- On all-digit inputs the code checksum sum equals the spec weighted sum. -/
theorem checksumNum_digits (cs : List Char) (h : cs.all Char.isDigit = true) :
    checksumNum cs = some (specWeightedSum cs) := by
  have hh : ∀ c ∈ cs.take 9, c.isDigit = true := by
    intro c hc
    exact List.all_eq_true.mp h c (List.take_subset 9 cs hc)
  have := foldl_optAdd_digits (cs.take 9) WEIGHTS 0 hh
  simpa [checksumNum, weightedTerms, specWeightedSum] using this

/-- A number below ten prints as its single digit character. -/
theorem natToChars_small (k : Nat) (h : k < 10) : natToChars k = [digitChar k] := by
  rw [natToChars]
  unfold natToCharsAux
  rw [if_pos h]

/-- On all-digit inputs with a non-negative weighted sum, the checksum string
is one character between '0' and '9'. -/
theorem checksumChars_of_nonneg (cs : List Char) (h : cs.all Char.isDigit = true)
    (hs : 0 ≤ specWeightedSum cs) :
    ∃ c, checksumChars cs = [c] ∧ '0' ≤ c ∧ c ≤ '9' := by
  rw [checksumChars, checksumNum_digits cs h]
  have h11 : Int.tmod (specWeightedSum cs) 11 = specWeightedSum cs % 11 :=
    Int.tmod_eq_emod hs (by norm_num)
  have hm1 : 0 ≤ specWeightedSum cs % 11 := Int.emod_nonneg _ (by norm_num)
  have h10 : Int.tmod (specWeightedSum cs % 11) 10 = specWeightedSum cs % 11 % 10 :=
    Int.tmod_eq_emod hm1 (by norm_num)
  have hm2 : 0 ≤ specWeightedSum cs % 11 % 10 := Int.emod_nonneg _ (by norm_num)
  have hlt : specWeightedSum cs % 11 % 10 < 10 := Int.emod_lt_of_pos _ (by norm_num)
  simp only [h11, h10]
  rw [if_neg (by omega)]
  rw [jsNumToStr, if_neg (by omega)]
  have hk : (specWeightedSum cs % 11 % 10).toNat < 10 := by omega
  rw [natToChars_small _ hk]
  exact ⟨digitChar (specWeightedSum cs % 11 % 10).toNat, rfl,
    (digitChar_range _ hk).1, (digitChar_range _ hk).2⟩

/-- Decomposition of a successful constructor call. -/
theorem construct_ok_inv (v : List Char) (ig : Bool) (r : Rntrc)
    (h : construct v ig = Except.ok r) :
    r = Rntrc.mk v ig ∧ v.length = 10 ∧ v.all Char.isDigit = true := by
  rw [construct] at h
  split at h
  · exact absurd h (by simp)
  · rename_i hcond
    push_neg at hcond
    refine ⟨?_, hcond.2.1, ?_⟩
    · injection h with h2
      exact h2.symm
    · cases hall : v.all Char.isDigit
      · exact absurd hall hcond.2.2
      · rfl

/-- The constructor never reports a range error. -/
theorem construct_ne_rangeErr (v : List Char) (ig : Bool) :
    construct v ig ≠ Except.error GenError.rangeErr := by
  rw [construct]
  split <;> intro hcon <;> simp at hcon

/-- The gender branch can only fail with the unrecognized-gender error. -/
theorem genderDigit_error_inv (go : Option String) (gd : Nat) (e : GenError)
    (h : genderDigit go gd = Except.error e) : e = GenError.invalidGender := by
  rw [genderDigit] at h
  split at h
  · exact absurd h (by simp)
  · split at h
    · exact absurd h (by simp)
    · split at h
      · exact absurd h (by simp)
      · injection h with h2
        exact h2.symm

/-- C1: the claim says generate always returns an Identifier passing the
validity predicate for every in-range configuration and every draw outcome.
The code's own documentation promises a valid instance, yet for the
calendar-valid, in-range date 2146-05-30 with gender male, record draw 0 and
gender multiplier 0 the nine assembled digits are 900000001, their weighted
sum is -2, the JS remainder keeps the sign, the checksum string is "-2", the
assembled value has eleven characters and the constructor throws. -/
theorem generate_throws_on_negative_checksum :
    generate 2146 5 30 (some maleStr) 0 0 = Except.error GenError.invalidRntrc := by
  decide

/-- C2: counterexample. The claim reads the reduction with the mathematical,
non-negative modulus; on the digit string 900000000 the weighted sum is -9,
the code returns the string "-9" while the mathematical reference returns
"2". -/
theorem checksum_differs_from_math_mod :
    checksumChars negSum1 = ['-', '9'] ∧ checksumSpecMath negSum1 = ['2'] ∧
    checksumChars negSum1 ≠ checksumSpecMath negSum1 := by
  refine ⟨by decide, by decide, by decide⟩

/-- C2 (amended): on every all-digit string the checksum equals the
reference definition computed with the truncated, sign-preserving remainder,
and it agrees with the mathematical-modulus reference exactly when the
weighted sum is non-negative. -/
theorem checksum_matches_reference (cs : List Char) (h : cs.all Char.isDigit = true) :
    checksumChars cs = checksumSpecTrunc cs ∧
    (0 ≤ specWeightedSum cs → checksumChars cs = checksumSpecMath cs) := by
  have hnum := checksumNum_digits cs h
  constructor
  · rw [checksumChars, hnum, checksumSpecTrunc]
  · intro hs
    simp only [checksumChars, hnum, checksumSpecMath]
    rw [Int.tmod_eq_emod hs (by norm_num),
      Int.tmod_eq_emod (Int.emod_nonneg _ (by norm_num)) (by norm_num)]

/-- C2: witness at the all-digit string 123456789, whose weighted sum 295 is
non-negative. -/
theorem checksum_matches_reference_witness :
    checksumChars shortId = checksumSpecTrunc shortId ∧
    (0 ≤ specWeightedSum shortId → checksumChars shortId = checksumSpecMath shortId) :=
  checksum_matches_reference shortId (by decide)

/-- C3: counterexample. On the digit string 910000000 the weighted sum is
-4 and the checksum output is the two-character string "-4", not a single
digit character. -/
theorem checksum_not_single_digit :
    checksumChars negSum2 = ['-', '4'] ∧ (checksumChars negSum2).length ≠ 1 := by
  refine ⟨by decide, by decide⟩

/-- C3 (amended): the checksum is deterministic, equal on inputs agreeing on
their first nine characters, and on every all-digit input whose weighted sum
is non-negative its output is one character between '0' and '9'. -/
theorem checksum_deterministic_digit (s t : List Char) (h9 : s.take 9 = t.take 9)
    (hs : s.all Char.isDigit = true) :
    checksumChars s = checksumChars t ∧
    (0 ≤ specWeightedSum s → ∃ c, checksumChars s = [c] ∧ '0' ≤ c ∧ c ≤ '9') :=
  ⟨checksumChars_congr s t h9, fun hn => checksumChars_of_nonneg s hs hn⟩

/-- C3: witness at the all-digit string 1234567899. -/
theorem checksum_deterministic_digit_witness :
    (checksumChars exId = checksumChars exId ∧
      (0 ≤ specWeightedSum exId → ∃ c, checksumChars exId = [c] ∧ '0' ≤ c ∧ c ≤ '9')) ∧
    0 ≤ specWeightedSum exId :=
  ⟨checksum_deterministic_digit exId exId rfl (by decide), by decide⟩

/-- C4: on every 10-digit value, valid is true exactly when the character at
index 8 is not '0' and the character at index 9 equals the checksum of the
first nine digits; in particular a value with '0' at index 8 is never
valid. -/
theorem valid_iff_gender_and_checksum (v : List Char) (h10 : v.length = 10)
    (hd : v.all Char.isDigit = true) :
    (valid v = true ↔ v[8]? ≠ some '0' ∧
      ∃ c, v[9]? = some c ∧ [c] = checksumChars (v.take 9)) ∧
    (v[8]? = some '0' → valid v = false) := by
  have h9lt : 9 < v.length := by omega
  have hc9 : v[9]? = some (v.get ⟨9, h9lt⟩) := List.getElem?_eq_getElem h9lt
  constructor
  · by_cases h8 : v[8]? = some '0'
    · simp [valid, h8]
    · simp [valid, h8, hc9, checksumChars_take9]
  · intro h8
    simp [valid, h8]

/-- C4: witness at the valid identifier 1234567899. -/
theorem valid_iff_gender_and_checksum_witness :
    ((valid exId = true ↔ exId[8]? ≠ some '0' ∧
        ∃ c, exId[9]? = some c ∧ [c] = checksumChars (exId.take 9)) ∧
      (exId[8]? = some '0' → valid exId = false)) :=
  valid_iff_gender_and_checksum exId (by decide) (by decide)

/-- C5: construction fails for every value whose string form is not exactly
ten decimal digits, whatever the skip-validation flag. -/
theorem construct_rejects_malformed (v : List Char) (ig : Bool)
    (h : ¬(v.length = 10 ∧ v.all Char.isDigit = true)) :
    construct v ig = Except.error GenError.invalidRntrc := by
  rw [construct, if_pos]
  by_cases hl : v.length = 10
  · right; right
    cases hall : v.all Char.isDigit
    · rfl
    · exact absurd ⟨hl, hall⟩ h
  · right; left
    exact hl

/-- C5: witness, the nine-digit string 123456789 is rejected with the flag
both set and unset. -/
theorem construct_rejects_malformed_witness :
    construct shortId true = Except.error GenError.invalidRntrc ∧
    construct shortId false = Except.error GenError.invalidRntrc :=
  ⟨construct_rejects_malformed shortId true (by decide),
    construct_rejects_malformed shortId false (by decide)⟩

/-- C10: a 10-digit value with '0' at index 8, constructed with the
skip-validation flag, constructs successfully, and its accessors report
female: gender is "female", female() is true, male() is false. -/
theorem skip_validation_gender_zero (v : List Char) (h10 : v.length = 10)
    (hd : v.all Char.isDigit = true) (h8 : v[8]? = some '0') :
    construct v true = Except.ok (Rntrc.mk v true) ∧ gender v = femaleStr ∧
    female v = true ∧ male v = false := by
  have hg : gender v = femaleStr := by
    unfold gender
    rw [h8]
    rfl
  refine ⟨?_, hg, ?_, ?_⟩
  · rw [construct, if_neg]
    intro hcon
    rcases hcon with ⟨hc1, _⟩ | hc | hc
    · cases hc1
    · exact hc h10
    · rw [hd] at hc
      cases hc
  · unfold female
    rw [hg]
    rfl
  · unfold male
    rw [hg]
    rfl

/-- C10: witness at the value 1234567809. -/
theorem skip_validation_gender_zero_witness :
    construct genderZeroId true = Except.ok (Rntrc.mk genderZeroId true) ∧
    gender genderZeroId = femaleStr ∧
    female genderZeroId = true ∧ male genderZeroId = false :=
  skip_validation_gender_zero genderZeroId (by decide) (by decide) (by decide)

/-- C6: counterexample. The claim covers every gender string other than
"male" and "female", but the code tests JS falsiness, so the empty string
takes the random-gender branch and generate succeeds instead of failing. -/
theorem generate_empty_gender_not_rejected :
    (emptyStr ≠ maleStr ∧ emptyStr ≠ femaleStr) ∧
    generate 2000 1 1 (some emptyStr) 0 1 = Except.ok (Rntrc.mk genExample false) :=
  ⟨⟨by decide, by decide⟩, by decide⟩

/-- C6 (amended): for every non-empty gender string other than "male" and
"female", supplied together with a calendar-valid in-range date, generate
fails with the unrecognized-gender error. -/
theorem generate_rejects_unknown_gender (y m d : Int) (g : String) (recDraw genderDraw : Nat)
    (hv : civilFromDays (jsMakeDay y (m - 1) d) = (y, m, d))
    (hlo : minDays ≤ jsMakeDay y (m - 1) d) (hhi : jsMakeDay y (m - 1) d ≤ maxDays)
    (hne : g ≠ emptyStr) (hml : g ≠ maleStr) (hfm : g ≠ femaleStr) :
    generate y m d (some g) recDraw genderDraw = Except.error GenError.invalidGender := by
  have hgd : genderDigit (some g) genderDraw = Except.error GenError.invalidGender := by
    rw [genderDigit, if_neg (by simp [hne]), if_neg (by simp [hfm]), if_neg (by simp [hml])]
  have h1 : minDays * 86400000 ≤ jsMakeDay y (m - 1) d * 86400000 :=
    mul_le_mul_of_nonneg_right hlo (by norm_num)
  have h2 : jsMakeDay y (m - 1) d * 86400000 ≤ maxDays * 86400000 :=
    mul_le_mul_of_nonneg_right hhi (by norm_num)
  have hrange : ¬(jsMakeDay y (m - 1) d * 86400000 < minMs ∨
      maxMs < jsMakeDay y (m - 1) d * 86400000) := by
    rw [not_or, not_lt, not_lt, minMs, maxMs]
    constructor
    · linarith
    · linarith
  simp only [generate]
  rw [if_neg (by simp [hv]), if_neg hrange, hgd]

/-- C6: witness at the gender string "other" and the date 2000-01-01. -/
theorem generate_rejects_unknown_gender_witness :
    generate 2000 1 1 (some otherGenderStr) 0 1 = Except.error GenError.invalidGender :=
  generate_rejects_unknown_gender 2000 1 1 otherGenderStr 0 1 (by decide) (by decide)
    (by decide) (by decide) (by decide) (by decide)

/-- C8: for every successfully constructed identifier, birthdate is the
epoch 1899-12-31 UTC midnight plus d days, where d is the unsigned integer
parsed from the first five digits; at the concrete value 1234567899 the
offset is 12345, the decoded calendar date is 1933-10-19, and gender is
"male" because the digit at index 8, 9, is odd. -/
theorem birthdate_offset_formula (v : List Char) (ig : Bool) (r : Rntrc)
    (h : construct v ig = Except.ok r) :
    birthdate r.value = some (baseMs + Int.ofNat (parseDigitsNat (r.value.take 5)) * 86400000) ∧
    (v = exId →
      birthdate r.value = some (86400000 * (baseDays + 12345)) ∧
      civilFromDays (baseDays + 12345) = ((1933 : Int), 10, 19) ∧
      gender r.value = maleStr) := by
  obtain ⟨hr, hlen, hdig⟩ := construct_ok_inv v ig r h
  subst hr
  constructor
  · show birthdate v = _
    rw [birthdate, jsParseInt_digits]
    · rfl
    · rw [List.all_eq_true]
      intro c hc
      exact List.all_eq_true.mp hdig c (List.take_subset 5 v hc)
    · have hl5 : (v.take 5).length = 5 := by
        rw [List.length_take]
        omega
      intro hcon
      rw [hcon] at hl5
      simp at hl5
  · intro hv
    subst hv
    refine ⟨?_, by decide, ?_⟩
    · show birthdate exId = some (86400000 * (baseDays + 12345))
      decide
    · show gender exId = maleStr
      decide

/-- C8: witness at the identifier 1234567899. -/
theorem birthdate_offset_formula_witness :
    birthdate (Rntrc.mk exId false).value =
      some (baseMs + Int.ofNat (parseDigitsNat ((Rntrc.mk exId false).value.take 5)) * 86400000) ∧
    (exId = exId →
      birthdate (Rntrc.mk exId false).value = some (86400000 * (baseDays + 12345)) ∧
      civilFromDays (baseDays + 12345) = ((1933 : Int), 10, 19) ∧
      gender (Rntrc.mk exId false).value = maleStr) :=
  birthdate_offset_formula exId false (Rntrc.mk exId false) (by decide)

/-- C9: for a calendar-valid resolved date, generate fails with the range
error exactly when the day number lies strictly before 1900-01-01 or
strictly after 2173-10-14; at the two bounds themselves the range check
passes and no range error can be produced. -/
theorem generate_range_check (y m d : Int) (go : Option String) (recDraw genderDraw : Nat)
    (hv : civilFromDays (jsMakeDay y (m - 1) d) = (y, m, d)) :
    ((jsMakeDay y (m - 1) d < minDays ∨ maxDays < jsMakeDay y (m - 1) d) →
      generate y m d go recDraw genderDraw = Except.error GenError.rangeErr) ∧
    ((y, m, d) = ((1900 : Int), 1, 1) ∨ (y, m, d) = ((2173 : Int), 10, 14) →
      generate y m d go recDraw genderDraw ≠ Except.error GenError.rangeErr) := by
  constructor
  · intro hout
    simp only [generate]
    rw [if_neg (by simp [hv]), if_pos]
    rw [minMs, maxMs]
    rcases hout with hout | hout
    · have h1 : jsMakeDay y (m - 1) d * 86400000 < minDays * 86400000 :=
        mul_lt_mul_of_pos_right hout (by norm_num)
      left
      linarith
    · have h1 : maxDays * 86400000 < jsMakeDay y (m - 1) d * 86400000 :=
        mul_lt_mul_of_pos_right hout (by norm_num)
      right
      linarith
  · intro hbound
    have hy : y = 1900 ∧ m = 1 ∧ d = 1 ∨ y = 2173 ∧ m = 10 ∧ d = 14 := by
      rcases hbound with hb | hb
      · left
        exact ⟨congrArg Prod.fst hb, congrArg (fun p => p.2.1) hb, congrArg (fun p => p.2.2) hb⟩
      · right
        exact ⟨congrArg Prod.fst hb, congrArg (fun p => p.2.1) hb, congrArg (fun p => p.2.2) hb⟩
    rcases hy with ⟨hy1, hy2, hy3⟩ | ⟨hy1, hy2, hy3⟩
    · subst hy1; subst hy2; subst hy3
      simp only [generate]
      rw [if_neg (by decide), if_neg (by decide)]
      cases hgd : genderDigit go genderDraw with
      | error e =>
        intro hcon
        have h2 : (Except.error e : Except GenError Rntrc)
            = Except.error GenError.rangeErr := hcon
        injection h2 with h3
        rw [genderDigit_error_inv go genderDraw e hgd] at h3
        exact absurd h3 (by decide)
      | ok g =>
        exact construct_ne_rangeErr _ _
    · subst hy1; subst hy2; subst hy3
      simp only [generate]
      rw [if_neg (by decide), if_neg (by decide)]
      cases hgd : genderDigit go genderDraw with
      | error e =>
        intro hcon
        have h2 : (Except.error e : Except GenError Rntrc)
            = Except.error GenError.rangeErr := hcon
        injection h2 with h3
        rw [genderDigit_error_inv go genderDraw e hgd] at h3
        exact absurd h3 (by decide)
      | ok g =>
        exact construct_ne_rangeErr _ _

/-- C9: witness, the calendar-valid date 1899-12-31 lies one day before the
minimum and generate rejects it with the range error. -/
theorem generate_range_check_witness :
    generate 1899 12 31 none 0 1 = Except.error GenError.rangeErr :=
  (generate_range_check 1899 12 31 none 0 1 (by decide)).1 (Or.inl (by decide))

/-- The first five characters of an assembled value are the padded day
offset. -/
theorem assemble_take5 (offset : Int) (rd g : Nat)
    (hlen : (jsNumToStr offset).length ≤ 5) :
    (assemble offset rd g).take 5 = padLeft (jsNumToStr offset) 5 '0' := by
  simp only [assemble]
  rw [List.append_assoc, List.append_assoc]
  exact List.take_left' (length_padLeft _ _ _ hlen)

/-- birthdate of an assembled value recovers the epoch plus the day
offset. -/
theorem assemble_birthdate (offset : Int) (rd g : Nat) (h0 : ¬offset < 0)
    (hlen : (jsNumToStr offset).length ≤ 5) :
    birthdate (assemble offset rd g) = some (baseMs + offset * 86400000) := by
  rw [birthdate, assemble_take5 offset rd g hlen]
  have hjs : jsNumToStr offset = natToChars offset.toNat := by
    rw [jsNumToStr, if_neg h0]
  have hdig : (padLeft (jsNumToStr offset) 5 '0').all Char.isDigit = true := by
    rw [hjs]
    exact all_isDigit_padLeft _ _ (all_isDigit_natToChars _)
  have hne : padLeft (jsNumToStr offset) 5 '0' ≠ [] := by
    intro hcon
    have h5 := length_padLeft (jsNumToStr offset) 5 '0' hlen
    rw [hcon] at h5
    simp at h5
  rw [jsParseInt_digits _ hdig hne]
  have hparse : parseDigitsNat (padLeft (jsNumToStr offset) 5 '0') = offset.toNat := by
    rw [hjs, parseDigitsNat_padLeft, parseDigitsNat_natToChars]
  rw [hparse]
  simp only [Option.map_some']
  congr 1
  have hofn : Int.ofNat offset.toNat = offset := by
    have h1 : (0 : Int) ≤ offset := not_lt.mp h0
    exact_mod_cast Int.toNat_of_nonneg h1
  rw [hofn]

/-- C7: whenever generate returns an Identifier for explicitly resolved
year, month and day, the birthdate accessor returns the UTC midnight of that
exact date, the resolved day number decodes back to the same calendar
triple, and the first five digits of the value are the day offset from the
1899-12-31 epoch, zero-padded to width five. -/
theorem generate_birthdate_roundtrip (y m d : Int) (go : Option String)
    (recDraw genderDraw : Nat) (r : Rntrc)
    (h : generate y m d go recDraw genderDraw = Except.ok r) :
    birthdate r.value = some (86400000 * jsMakeDay y (m - 1) d) ∧
    civilFromDays (jsMakeDay y (m - 1) d) = (y, m, d) ∧
    r.value.take 5 = padLeft (jsNumToStr (jsMakeDay y (m - 1) d - baseDays)) 5 '0' := by
  simp only [generate] at h
  split at h
  · exact absurd h (by simp)
  · rename_i hdate
    split at h
    · exact absurd h (by simp)
    · rename_i hrange
      split at h
      · exact absurd h (by simp)
      · rename_i g hgd
        have hdate2 : civilFromDays (jsMakeDay y (m - 1) d) = (y, m, d) := not_not.mp hdate
        push_neg at hrange
        obtain ⟨hlo, hhi⟩ := hrange
        have h86 : (0 : Int) < 86400000 := by norm_num
        have hlo2 : minDays ≤ jsMakeDay y (m - 1) d :=
          le_of_mul_le_mul_right (by rw [minMs] at hlo; linarith) h86
        have hhi2 : jsMakeDay y (m - 1) d ≤ maxDays :=
          le_of_mul_le_mul_right (by rw [maxMs] at hhi; linarith) h86
        have hbnd : 1 ≤ jsMakeDay y (m - 1) d - baseDays ∧
            jsMakeDay y (m - 1) d - baseDays ≤ 99999 := by
          have e1 : minDays = baseDays + 1 := by decide
          have e2 : maxDays = baseDays + 99999 := by decide
          rw [e1] at hlo2
          rw [e2] at hhi2
          omega
        have hofs : Int.fdiv (jsMakeDay y (m - 1) d * 86400000 - baseMs) 86400000
            = jsMakeDay y (m - 1) d - baseDays := by
          have e3 : jsMakeDay y (m - 1) d * 86400000 - baseMs
              = (jsMakeDay y (m - 1) d - baseDays) * 86400000 := by
            rw [baseMs]
            ring
          rw [e3, Int.mul_fdiv_cancel _ (by norm_num)]
        rw [hofs] at h
        have hjs : jsNumToStr (jsMakeDay y (m - 1) d - baseDays)
            = natToChars (jsMakeDay y (m - 1) d - baseDays).toNat := by
          rw [jsNumToStr, if_neg (by omega)]
        have hk5 : (jsMakeDay y (m - 1) d - baseDays).toNat < 10 ^ 5 := by
          have h5 : (10 : Nat) ^ 5 = 100000 := by norm_num
          rw [h5]
          omega
        have hlenjs : (jsNumToStr (jsMakeDay y (m - 1) d - baseDays)).length ≤ 5 := by
          rw [hjs]
          exact length_natToChars _ 5 hk5 (by norm_num)
        obtain ⟨hr, hlen10, hdigall⟩ := construct_ok_inv _ _ _ h
        subst hr
        refine ⟨?_, hdate2, ?_⟩
        · show birthdate (assemble (jsMakeDay y (m - 1) d - baseDays) recDraw g)
            = some (86400000 * jsMakeDay y (m - 1) d)
          rw [assemble_birthdate _ _ _ (by omega) hlenjs]
          congr 1
          rw [baseMs]
          ring
        · show (assemble (jsMakeDay y (m - 1) d - baseDays) recDraw g).take 5
            = padLeft (jsNumToStr (jsMakeDay y (m - 1) d - baseDays)) 5 '0'
          exact assemble_take5 _ _ _ hlenjs

/-- C7: witness at the explicit date 2000-01-01 with record draw 0 and
gender digit 1, which generates the identifier 3652500018. -/
theorem generate_birthdate_roundtrip_witness :
    birthdate (Rntrc.mk genExample false).value =
      some (86400000 * jsMakeDay 2000 (1 - 1) 1) ∧
    civilFromDays (jsMakeDay 2000 (1 - 1) 1) = ((2000 : Int), 1, 1) ∧
    (Rntrc.mk genExample false).value.take 5 =
      padLeft (jsNumToStr (jsMakeDay 2000 (1 - 1) 1 - baseDays)) 5 '0' :=
  generate_birthdate_roundtrip 2000 1 1 none 0 1 (Rntrc.mk genExample false) (by decide)
